import Mathlib

/-!
Verification of the KPI aggregation pipeline of this repository.

Part 1 embeds `src/calcular_kpi.py`: record field coercion (Python
`int(...)` / `float(...)` / `str(...)` on JSON values), timestamp parsing
(`datetime.strptime` with format `%Y-%m-%dT%H:%M:%SZ` followed by
`strftime("%Y-%m-%d")`), endpoint normalization, the `Agg` accumulator and
`compute_kpis`.

Part 2 embeds `src/generar_reporte.py`: `build_endpoint_table` (weighted
endpoint roll-up) and the `alerta_p90` flag of `render_html`.

Python floats are modelled as rationals (`ℚ`); non-finite literals
(`inf`/`nan`) and underscore digit separators of numeric literals are not
modelled.  Python dicts keep insertion order, so the `defaultdict` of
groups is modelled as an association list in insertion order.
-/

/-- A JSON scalar value as it can appear in a record field: a string, an
integer or a (finite) floating-point number, the latter modelled as a
rational.  A missing field (or JSON `null`, which Python's `r.get` makes
indistinguishable from a missing key) is modelled as `Option.none` one
level up. -/
inductive JVal where
  | s (v : String)
  | i (v : Int)
  | f (v : ℚ)
deriving Repr, DecidableEq

/-- One input record of `compute_kpis`, with the five fields the code
extracts via `r.get(...)`; `none` means the key is absent (or null). -/
structure Record where
  timestamp_utc : Option JVal
  endpoint : Option JVal
  status_code : Option JVal
  elapsed_ms : Option JVal
  parse_result : Option JVal
deriving Repr, DecidableEq

/-- Numeric value of a decimal digit character, `none` otherwise. -/
def digitVal (c : Char) : Option ℕ :=
  if c.isDigit then some (c.toNat - 48) else none

/-- Split a leading run of decimal digits off a character list. -/
def takeDigits : List Char → List ℕ × List Char
  | [] => ([], [])
  | c :: rest =>
    match digitVal c with
    | some d => let (ds, r) := takeDigits rest; (d :: ds, r)
    | none => ([], c :: rest)

/-- Value of a digit list read as a base-10 numeral. -/
def digitsToNat (ds : List ℕ) : ℕ := ds.foldl (fun acc d => 10 * acc + d) 0

/-- Python treats space, tab, newline, CR, FF and VT as whitespace for
`int()` / `float()` argument stripping. -/
def isPySpace (c : Char) : Bool :=
  c = ' ' ∨ c = '\t' ∨ c = '\n' ∨ c = '\x0d' ∨ c = '\x0c' ∨ c = '\x0b'

/-- Strip leading and trailing whitespace, as `int(str)` / `float(str)` do. -/
def stripWs (cs : List Char) : List Char :=
  ((cs.dropWhile isPySpace).reverse.dropWhile isPySpace).reverse

/-- Optional leading sign: returns the sign (+1 or -1) and the rest. -/
def takeSign : List Char → Int × List Char
  | '+' :: rest => (1, rest)
  | '-' :: rest => (-1, rest)
  | cs => (1, cs)

/-- Python `int(str)`: optional surrounding whitespace, optional sign, then
a nonempty digit string. -/
def pyIntOfStr (str : String) : Option Int :=
  let (sign, cs) := takeSign (stripWs str.data)
  let (ds, rest) := takeDigits cs
  if ds ≠ [] ∧ rest = [] then some (sign * digitsToNat ds) else none

/-- Python `float(str)`: optional whitespace and sign, then a decimal
literal `digits [. digits]`, `. digits` or `digits .`, with an optional
exponent part `(e|E) [sign] digits`. -/
def pyFloatOfStr (str : String) : Option ℚ :=
  let (sign, cs) := takeSign (stripWs str.data)
  let (ipart, cs₁) := takeDigits cs
  let (fpart, cs₂) :=
    match cs₁ with
    | '.' :: rest => let (ds, r) := takeDigits rest; (some ds, r)
    | _ => (none, cs₁)
  if ipart = [] ∧ (fpart = none ∨ fpart = some []) then none
  else
    let frac := fpart.getD []
    let mant : ℚ := (digitsToNat ipart : ℚ) + mkRat (digitsToNat frac) (10 ^ frac.length)
    let applyExp : List Char → Option ℚ := fun tail =>
      match tail with
      | [] => some (sign * mant)
      | e :: rest =>
        if e = 'e' ∨ e = 'E' then
          let (esign, rest₁) := takeSign rest
          let (eds, rest₂) := takeDigits rest₁
          if eds ≠ [] ∧ rest₂ = [] then
            some (if 0 ≤ esign then sign * mant * 10 ^ digitsToNat eds
                  else sign * mant / 10 ^ digitsToNat eds)
          else none
        else none
    applyExp cs₂

/-- Truncation of a rational toward zero, as Python `int(float)` does. -/
def ratTrunc (q : ℚ) : Int :=
  if 0 ≤ q then q.floor else -(-q).floor

/-- Python `int(x)` on a JSON value: parses integer strings, truncates
floats, and fails (raises) on anything else. -/
def pyInt : JVal → Option Int
  | .s v => pyIntOfStr v
  | .i v => some v
  | .f v => some (ratTrunc v)

/-- Python `float(x)` on a JSON value: parses float strings and accepts
numbers. -/
def pyFloat : JVal → Option ℚ
  | .s v => pyFloatOfStr v
  | .i v => some v
  | .f v => some v

/-- Python `str(x)` on a JSON value.  For floats Python's repr is
approximated by the rational's own representation; the pipeline only ever
compares the result against `"ok"` or feeds it to the timestamp/endpoint
logic, where no claim depends on the exact spelling of a numeric string. -/
def pyStr : JVal → String
  | .s v => v
  | .i v => toString v
  | .f v => toString v

/-- Number of days of a month in the proleptic Gregorian calendar used by
`datetime`. -/
def daysInMonth (year month : ℕ) : ℕ :=
  if month = 2 then
    if year % 4 = 0 ∧ (year % 100 ≠ 0 ∨ year % 400 = 0) then 29 else 28
  else if month = 4 ∨ month = 6 ∨ month = 9 ∨ month = 11 then 30
  else 31

/-- Read a 1- or 2-digit numeric field of `strptime` (its regexes for
`%m`, `%d`, `%H`, `%M`, `%S` admit a single digit as well as a zero-padded
pair) and range-check it. -/
def readField2 (lo hi : ℕ) (cs : List Char) : Option (ℕ × List Char) :=
  let (ds, rest) := takeDigits cs
  match ds with
  | [a] => if lo ≤ a ∧ a ≤ hi then some (a, rest) else none
  | [a, b] => let v := 10 * a + b; if lo ≤ v ∧ v ≤ hi then some (v, rest) else none
  | _ => none

/-- Expect one specific character. -/
def expectChar (c : Char) : List Char → Option (List Char)
  | c' :: rest => if c' = c then some rest else none
  | [] => none

/-- Expect a character up to ASCII case (the `strptime` format regex is
compiled with `re.IGNORECASE`, so the literal `T` and `Z` also match
`t` / `z`). -/
def expectCharCI (c : Char) : List Char → Option (List Char)
  | c' :: rest => if c' = c ∨ c' = c.toLower then some rest else none
  | [] => none

/-- The matching phase of `strptime(ts, "%Y-%m-%dT%H:%M:%SZ")`: `%Y` is
exactly four digits; month, day, hour, minute, second are one or two
digits within the regex ranges (seconds up to 61, as in `_strptime`); the
whole string must be consumed. -/
def parseTimestampFields (cs : List Char) : Option (ℕ × ℕ × ℕ × ℕ × ℕ × ℕ) := do
  let (yds, cs) := takeDigits cs
  match yds with
  | [a, b, c, d] =>
    let y := 1000 * a + 100 * b + 10 * c + d
    let cs ← expectChar '-' cs
    let (mo, cs) ← readField2 1 12 cs
    let cs ← expectChar '-' cs
    let (dy, cs) ← readField2 1 31 cs
    let cs ← expectCharCI 'T' cs
    let (hh, cs) ← readField2 0 23 cs
    let cs ← expectChar ':' cs
    let (mi, cs) ← readField2 0 59 cs
    let cs ← expectChar ':' cs
    let (ss, cs) ← readField2 0 61 cs
    let cs ← expectCharCI 'Z' cs
    match cs with
    | [] => pure (y, mo, dy, hh, mi, ss)
    | _ => none
  | _ => none

/-- Zero-pad a numeral to two digits, as `strftime` field formatting does. -/
def pad2 (n : ℕ) : String :=
  if n < 10 then "0" ++ toString n else toString n

/-- Zero-pad a numeral to four digits (`%Y` output). -/
def pad4 (n : ℕ) : String :=
  if n < 10 then "000" ++ toString n
  else if n < 100 then "00" ++ toString n
  else if n < 1000 then "0" ++ toString n
  else toString n

/-- Embedding of `parse_date_utc`: `strptime` with format
`%Y-%m-%dT%H:%M:%SZ` (regex match plus the `datetime` constructor's
validity checks: year at least 1, day within the month, second at most
59), then `strftime("%Y-%m-%d")`.  `none` models the `ValueError` the
Python function lets escape. -/
def parse_date_utc (timestamp_utc : String) : Option String :=
  match parseTimestampFields timestamp_utc.data with
  | none => none
  | some (y, mo, dy, _hh, _mi, ss) =>
    if 1 ≤ y ∧ dy ≤ daysInMonth y mo ∧ ss ≤ 59 then
      some (pad4 y ++ "-" ++ pad2 mo ++ "-" ++ pad2 dy)
    else none

/-- Embedding of `normalize_endpoint`: drop everything from the first `?`
on (`endpoint.split("?", 1)[0]`), then collapse the `/status/...` and
`/basic-auth/...` families. -/
def normalize_endpoint (endpoint : String) : String :=
  let base : String := ⟨endpoint.data.takeWhile (· ≠ '?')⟩
  if "/status/".data.isPrefixOf base.data then "/status"
  else if "/basic-auth/".data.isPrefixOf base.data then "/basic-auth"
  else base

/-- Embedding of the `Agg` dataclass of `calcular_kpi.py`. -/
structure Agg where
  elapsed : List ℚ
  requests_total : ℕ := 0
  success_2xx : ℕ := 0
  client_4xx : ℕ := 0
  server_5xx : ℕ := 0
  parse_errors : ℕ := 0
deriving Repr, DecidableEq

/-- The accumulator a fresh `defaultdict` entry starts from:
`Agg(elapsed=[])`. -/
def emptyAgg : Agg := { elapsed := [] }

/-- Embedding of `Agg.add`: count the request, keep the sample, classify
the status by the `if/elif` chain over the inclusive ranges 200-299,
400-499, 500-599, and count a parse error when `parse_result != "ok"`. -/
def Agg.add (a : Agg) (status_code : Int) (elapsed_ms : ℚ) (parse_result : String) : Agg :=
  let a := { a with
    requests_total := a.requests_total + 1
    elapsed := a.elapsed ++ [elapsed_ms] }
  let a :=
    if 200 ≤ status_code ∧ status_code ≤ 299 then
      { a with success_2xx := a.success_2xx + 1 }
    else if 400 ≤ status_code ∧ status_code ≤ 499 then
      { a with client_4xx := a.client_4xx + 1 }
    else if 500 ≤ status_code ∧ status_code ≤ 599 then
      { a with server_5xx := a.server_5xx + 1 }
    else a
  if parse_result ≠ "ok" then { a with parse_errors := a.parse_errors + 1 } else a

/-- Embedding of `Agg.avg_elapsed_ms`: `np.mean` of the samples (their sum
divided by their number), or 0.0 with no samples. -/
def Agg.avg_elapsed_ms (a : Agg) : ℚ :=
  if a.elapsed = [] then 0 else a.elapsed.sum / a.elapsed.length

/-- Embedding of `np.percentile(values, 90)` with the default linear
interpolation: sort ascending, take rank `h = 0.9 * (n - 1)` and
interpolate between the neighbouring order statistics. -/
def percentile90 (values : List ℚ) : ℚ :=
  let s := List.insertionSort (· ≤ ·) values
  let n := values.length
  let h : ℚ := 9 * ((n : ℚ) - 1) / 10
  let i : ℕ := h.floor.toNat
  let lo := s.getD i 0
  let hi := s.getD (i + 1) lo
  lo + (h - (i : ℚ)) * (hi - lo)

/-- Embedding of `Agg.p90_elapsed_ms`: `np.percentile(self.elapsed, 90)`,
or 0.0 with no samples. -/
def Agg.p90_elapsed_ms (a : Agg) : ℚ :=
  if a.elapsed = [] then 0 else percentile90 a.elapsed

/-- A group key `(date_utc, endpoint_base)`. -/
abbrev GroupKey := String × String

/-- The `defaultdict` of `compute_kpis`, as an association list in
insertion order. -/
abbrev Groups := List (GroupKey × Agg)

/-- Lookup in the association list (Python dict indexing). -/
def lookupG (groups : Groups) (k : GroupKey) : Option Agg :=
  match groups with
  | [] => none
  | (k', a) :: rest => if k' = k then some a else lookupG rest k

/-- Defaultdict update `groups[k] = f(groups[k] or Agg(elapsed=[]))`: the
first binding of `k` is rewritten in place, and a missing key is appended
at the back, as Python dict insertion order does. -/
def updateGroup (groups : Groups) (k : GroupKey) (f : Agg → Agg) : Groups :=
  match groups with
  | [] => [(k, f emptyAgg)]
  | (k', a) :: rest =>
    if k' = k then (k', f a) :: rest else (k', a) :: updateGroup rest k f

/-- The coerced status code of a record: `int(status_code)`, with 0
substituted when the coercion raises (including an absent field, since
`int(None)` raises `TypeError`). -/
def recStatus (r : Record) : Int := (r.status_code.bind pyInt).getD 0

/-- The coerced elapsed time of a record: `float(elapsed_ms)`, with 0.0
substituted when the coercion raises. -/
def recElapsed (r : Record) : ℚ := (r.elapsed_ms.bind pyFloat).getD 0

/-- The resolved `parse_result` string passed to `Agg.add`: a failed
status or elapsed coercion overwrites it with the literal `"error"`;
otherwise an absent value resolves to `"error"` and a present one to its
`str(...)` form. -/
def resolvedParse (r : Record) : String :=
  if r.status_code.bind pyInt = none ∨ r.elapsed_ms.bind pyFloat = none then "error"
  else match r.parse_result with
    | none => "error"
    | some v => pyStr v

/-- The group key a record is routed to: `none` when `timestamp_utc` or
`endpoint` is absent (the record is dropped) or when the timestamp does
not parse (in which case processing aborts instead). -/
def recordKey (r : Record) : Option GroupKey :=
  match r.timestamp_utc, r.endpoint with
  | some ts, some ep =>
    (parse_date_utc (pyStr ts)).map (fun d => (d, normalize_endpoint (pyStr ep)))
  | _, _ => none

/-- One iteration of the `for r in rows` loop of `compute_kpis`: drop the
record if `timestamp_utc` or `endpoint` is absent, abort on an unparsable
timestamp, and otherwise fold the coerced fields into the record's group. -/
def step (groups : Groups) (r : Record) : Except String Groups :=
  match r.timestamp_utc, r.endpoint with
  | some ts, some endpoint =>
    match parse_date_utc (pyStr ts) with
    | some date_utc =>
      Except.ok (updateGroup groups (date_utc, normalize_endpoint (pyStr endpoint))
        (fun a => a.add (recStatus r) (recElapsed r) (resolvedParse r)))
    | none => Except.error ("time data " ++ pyStr ts ++ " does not match format %Y-%m-%dT%H:%M:%SZ")
  | _, _ => Except.ok groups

/-- The loop of `compute_kpis`, threading the group map through `step` and
propagating the first uncaught exception. -/
def runRows (groups : Groups) : List Record → Except String Groups
  | [] => Except.ok groups
  | r :: rs =>
    match step groups r with
    | Except.ok g => runRows g rs
    | Except.error e => Except.error e

/-- Embedding of `compute_kpis`: fold all records into an initially empty
group map. -/
def compute_kpis (rows : List Record) : Except String Groups :=
  runRows [] rows

/-- Modelled from the spec: the records of the input that contribute to
the group of a given key, namely those that are not dropped for a missing
`timestamp_utc`/`endpoint` and whose derived `(date_utc, endpoint_base)`
equals the key. -/
def contributingRecords (rows : List Record) (k : GroupKey) : List Record :=
  rows.filter (fun r => recordKey r = some k)

/-- Half-to-even rounding of a rational to an integer, the rounding
`pandas`/`numpy` `.round` applies to each coordinate. -/
def roundHalfEven (q : ℚ) : Int :=
  let f := q.floor
  let r := q - (f : ℚ)
  if r < 1/2 then f
  else if 1/2 < r then f + 1
  else if f % 2 = 0 then f else f + 1

/-- Rounding to two decimal places (`.round(2)`). -/
def roundQ2 (q : ℚ) : ℚ := (roundHalfEven (q * 100) : ℚ) / 100

/-- One row of the persisted KPI table `kpi_por_endpoint_dia.csv`, as
`generar_reporte.py` reads it back. -/
structure KpiRow where
  date_utc : String
  endpoint_base : String
  requests_total : ℕ
  success_2xx : ℕ
  client_4xx : ℕ
  server_5xx : ℕ
  parse_errors : ℕ
  avg_elapsed_ms : ℚ
  p90_elapsed_ms : ℚ
deriving Repr, DecidableEq

/-- One row of the Endpoint Summary table built by
`build_endpoint_table`; `pct_success`, `pct_client_4xx` and
`pct_server_5xx` stand for the `%_success`, `%_client_4xx` and
`%_server_5xx` columns. -/
structure EndpointRow where
  endpoint_base : String
  requests_total : ℕ
  success_2xx : ℕ
  client_4xx : ℕ
  server_5xx : ℕ
  avg_elapsed_ms : ℚ
  p90_elapsed_ms : ℚ
  pct_success : ℚ
  pct_client_4xx : ℚ
  pct_server_5xx : ℚ
deriving Repr, DecidableEq

/-- The aggregation `build_endpoint_table` applies to the rows of one
`endpoint_base` group: sum the counts, weight the two latency metrics by
`requests_total` with the `max(..., 1)` division guard, derive the three
percentage columns with their `requests_total > 0` guard, and round every
derived column to two decimals. -/
def aggEndpoint (b : String) (grp : List KpiRow) : EndpointRow :=
  let rt := (grp.map (·.requests_total)).sum
  let avgw : ℚ := (grp.map (fun r => r.avg_elapsed_ms * (r.requests_total : ℚ))).sum / (max rt 1 : ℕ)
  let p90w : ℚ := (grp.map (fun r => r.p90_elapsed_ms * (r.requests_total : ℚ))).sum / (max rt 1 : ℕ)
  let s2 := (grp.map (·.success_2xx)).sum
  let c4 := (grp.map (·.client_4xx)).sum
  let s5 := (grp.map (·.server_5xx)).sum
  { endpoint_base := b
    requests_total := rt
    success_2xx := s2
    client_4xx := c4
    server_5xx := s5
    avg_elapsed_ms := roundQ2 avgw
    p90_elapsed_ms := roundQ2 p90w
    pct_success := roundQ2 (if 0 < rt then (s2 : ℚ) / (rt : ℚ) * 100 else 0)
    pct_client_4xx := roundQ2 (if 0 < rt then (c4 : ℚ) / (rt : ℚ) * 100 else 0)
    pct_server_5xx := roundQ2 (if 0 < rt then (s5 : ℚ) / (rt : ℚ) * 100 else 0) }

/-- Embedding of `build_endpoint_table`: `groupby("endpoint_base")` visits
the distinct bases in ascending order, each group keeps the original row
order, and the resulting table is sorted by `requests_total` descending
(`sort_values`; its default quicksort leaves the relative order of tied
rows unspecified, so the ordering of ties below is a modelling choice, not
a source guarantee). -/
def build_endpoint_table (df : List KpiRow) : List EndpointRow :=
  let keys := List.insertionSort (· ≤ ·) (df.map (·.endpoint_base)).dedup
  let g := keys.map (fun b => aggEndpoint b (df.filter (fun r => r.endpoint_base = b)))
  List.insertionSort (fun a b => b.requests_total ≤ a.requests_total) g

/-- The alert flag `render_html` computes per row:
`"SI" if float(v) > umbral_p90 else "NO"`, applied to the rounded
`p90_elapsed_ms` column. -/
def alerta_p90 (v umbral_p90 : ℚ) : String :=
  if umbral_p90 < v then "SI" else "NO"

/-- The `alerta_p90` column `render_html` adds to the endpoint table. -/
def alertColumn (df_endpoints : List EndpointRow) (umbral_p90 : ℚ) : List String :=
  df_endpoints.map (fun v => alerta_p90 v.p90_elapsed_ms umbral_p90)

/-- The per-record accumulator update `compute_kpis` performs:
`groups[key].add(sc, ems, pr)` with the coerced fields. -/
def addRec (a : Agg) (r : Record) : Agg :=
  a.add (recStatus r) (recElapsed r) (resolvedParse r)

/-- The effect on one key of folding a list of records into a group map,
starting from the key's current binding (`none` when the key is not bound
yet): each record folds into the running accumulator, a fresh one starting
from `Agg(elapsed=[])`. -/
def applyRecs (o : Option Agg) : List Record → Option Agg
  | [] => o
  | r :: rs => applyRecs (some (addRec (o.getD emptyAgg) r)) rs

lemma applyRecs_some (a : Agg) (l : List Record) :
    applyRecs (some a) l = some (l.foldl addRec a) := by
  induction l generalizing a with
  | nil => rfl
  | cons r rs ih => simp [applyRecs, List.foldl, ih]

lemma step_drop (g : Groups) (r : Record)
    (h : r.timestamp_utc = none ∨ r.endpoint = none) : step g r = Except.ok g := by
  rcases h with h | h
  · unfold step; rw [h]
  · unfold step; rw [h]; rcases r.timestamp_utc with _ | ts <;> rfl

lemma step_ok (g : Groups) (r : Record) (ts ep : JVal) (d : String)
    (hts : r.timestamp_utc = some ts) (hep : r.endpoint = some ep)
    (hd : parse_date_utc (pyStr ts) = some d) :
    step g r =
      Except.ok (updateGroup g (d, normalize_endpoint (pyStr ep)) (fun a => addRec a r)) := by
  obtain ⟨ots, oep, osc, oems, opr⟩ := r
  cases hts; cases hep
  unfold step
  dsimp only
  rw [hd]
  rfl

lemma step_fatal (g : Groups) (r : Record) (ts ep : JVal)
    (hts : r.timestamp_utc = some ts) (hep : r.endpoint = some ep)
    (hd : parse_date_utc (pyStr ts) = none) :
    step g r = Except.error ("time data " ++ pyStr ts ++ " does not match format %Y-%m-%dT%H:%M:%SZ") := by
  obtain ⟨ots, oep, osc, oems, opr⟩ := r
  cases hts; cases hep
  unfold step
  dsimp only
  rw [hd]

lemma recordKey_none (r : Record) (h : r.timestamp_utc = none ∨ r.endpoint = none) :
    recordKey r = none := by
  rcases h with h | h
  · unfold recordKey; rw [h]
  · unfold recordKey; rw [h]; rcases r.timestamp_utc with _ | ts <;> rfl

lemma recordKey_some (r : Record) (ts ep : JVal) (d : String)
    (hts : r.timestamp_utc = some ts) (hep : r.endpoint = some ep)
    (hd : parse_date_utc (pyStr ts) = some d) :
    recordKey r = some (d, normalize_endpoint (pyStr ep)) := by
  obtain ⟨ots, oep, osc, oems, opr⟩ := r
  cases hts; cases hep
  unfold recordKey
  dsimp only
  rw [hd]
  rfl

lemma lookupG_updateGroup (g : Groups) (k k' : GroupKey) (f : Agg → Agg) :
    lookupG (updateGroup g k f) k' =
      if k' = k then some (f ((lookupG g k).getD emptyAgg)) else lookupG g k' := by
  induction g with
  | nil =>
    by_cases h : k' = k
    · subst h; simp [updateGroup, lookupG]
    · simp [updateGroup, lookupG, h, Ne.symm h]
  | cons hd tl ih =>
    obtain ⟨k₀, a₀⟩ := hd
    by_cases h₀ : k₀ = k
    · subst h₀
      by_cases h : k' = k₀
      · subst h; simp [updateGroup, lookupG]
      · simp [updateGroup, lookupG, h, Ne.symm h]
    · by_cases h : k' = k₀
      · subst h
        simp [updateGroup, lookupG, h₀, Ne.symm h₀]
      · simp [updateGroup, lookupG, h₀, h, Ne.symm h, ih]

lemma runRows_cons (g0 : Groups) (r : Record) (rs : List Record) :
    runRows g0 (r :: rs) =
      match step g0 r with
      | Except.ok g => runRows g rs
      | Except.error e => Except.error e := rfl

lemma runRows_cons_ok (g0 g1 : Groups) (r : Record) (rs : List Record)
    (h : step g0 r = Except.ok g1) : runRows g0 (r :: rs) = runRows g1 rs := by
  rw [runRows_cons, h]

lemma runRows_cons_err (g0 : Groups) (r : Record) (rs : List Record) (e : String)
    (h : step g0 r = Except.error e) : runRows g0 (r :: rs) = Except.error e := by
  rw [runRows_cons, h]

lemma mem_keys_updateGroup (g : Groups) (k x : GroupKey) (f : Agg → Agg) :
    x ∈ (updateGroup g k f).map Prod.fst ↔ x ∈ g.map Prod.fst ∨ x = k := by
  induction g with
  | nil => simp [updateGroup]
  | cons hd tl ih =>
    obtain ⟨k₀, a₀⟩ := hd
    by_cases h₀ : k₀ = k
    · subst h₀
      simp [updateGroup]
      by_cases hx : x = k₀ <;> simp [hx]
    · simp [updateGroup, h₀, ih]
      tauto

lemma nodup_keys_updateGroup (g : Groups) (k : GroupKey) (f : Agg → Agg)
    (h : (g.map Prod.fst).Nodup) : ((updateGroup g k f).map Prod.fst).Nodup := by
  induction g with
  | nil => simp [updateGroup]
  | cons hd tl ih =>
    obtain ⟨k₀, a₀⟩ := hd
    simp only [List.map_cons, List.nodup_cons] at h
    by_cases h₀ : k₀ = k
    · subst h₀
      simp [updateGroup, List.nodup_cons, h.1, h.2]
    · simp only [updateGroup, if_neg h₀, List.map_cons, List.nodup_cons]
      refine ⟨?_, ih h.2⟩
      rw [mem_keys_updateGroup]
      rintro (hm | rfl)
      · exact h.1 hm
      · exact h₀ rfl

lemma lookupG_of_mem (g : Groups) (k : GroupKey) (a : Agg)
    (hnd : (g.map Prod.fst).Nodup) (hm : (k, a) ∈ g) : lookupG g k = some a := by
  induction g with
  | nil => cases hm
  | cons hd tl ih =>
    obtain ⟨k₀, a₀⟩ := hd
    simp only [List.map_cons, List.nodup_cons] at hnd
    rcases List.mem_cons.mp hm with h | h
    · obtain ⟨rfl, rfl⟩ := Prod.mk.injEq .. ▸ h
      injection h with h1 h2
      simp [lookupG]
    · have hk : k₀ ≠ k := by
        rintro rfl
        exact hnd.1 (List.mem_map_of_mem Prod.fst h)
      simp [lookupG, hk, ih hnd.2 h]

lemma runRows_nodup (rows : List Record) :
    ∀ (g0 g : Groups), runRows g0 rows = Except.ok g →
      (g0.map Prod.fst).Nodup → (g.map Prod.fst).Nodup := by
  induction rows with
  | nil =>
    intro g0 g h hnd
    injection h with h
    exact h ▸ hnd
  | cons r rs ih =>
    intro g0 g h hnd
    rcases hts : r.timestamp_utc with _ | ts
    · rw [runRows_cons_ok g0 g0 r rs (step_drop g0 r (Or.inl hts))] at h
      exact ih g0 g h hnd
    · rcases hep : r.endpoint with _ | ep
      · rw [runRows_cons_ok g0 g0 r rs (step_drop g0 r (Or.inr hep))] at h
        exact ih g0 g h hnd
      · rcases hd : parse_date_utc (pyStr ts) with _ | d
        · rw [runRows_cons_err g0 r rs _ (step_fatal g0 r ts ep hts hep hd)] at h
          cases h
        · rw [runRows_cons_ok g0 _ r rs (step_ok g0 r ts ep d hts hep hd)] at h
          exact ih _ g h (nodup_keys_updateGroup _ _ _ hnd)

lemma contributingRecords_nil (k : GroupKey) : contributingRecords [] k = [] := rfl

lemma contributingRecords_cons_of_ne (r : Record) (rs : List Record) (k : GroupKey)
    (h : recordKey r ≠ some k) :
    contributingRecords (r :: rs) k = contributingRecords rs k := by
  simp [contributingRecords, List.filter_cons, h]

lemma contributingRecords_cons_of_eq (r : Record) (rs : List Record) (k : GroupKey)
    (h : recordKey r = some k) :
    contributingRecords (r :: rs) k = r :: contributingRecords rs k := by
  simp [contributingRecords, List.filter_cons, h]

lemma runRows_lookup (rows : List Record) :
    ∀ (g0 g : Groups), runRows g0 rows = Except.ok g →
      ∀ k, lookupG g k = applyRecs (lookupG g0 k) (contributingRecords rows k) := by
  induction rows with
  | nil =>
    intro g0 g h k
    injection h with h
    subst h
    rfl
  | cons r rs ih =>
    intro g0 g h k
    rcases hts : r.timestamp_utc with _ | ts
    · rw [runRows_cons_ok g0 g0 r rs (step_drop g0 r (Or.inl hts))] at h
      rw [contributingRecords_cons_of_ne r rs k
        (by rw [recordKey_none r (Or.inl hts)]; exact fun hc => Option.noConfusion hc)]
      exact ih g0 g h k
    · rcases hep : r.endpoint with _ | ep
      · rw [runRows_cons_ok g0 g0 r rs (step_drop g0 r (Or.inr hep))] at h
        rw [contributingRecords_cons_of_ne r rs k
          (by rw [recordKey_none r (Or.inr hep)]; exact fun hc => Option.noConfusion hc)]
        exact ih g0 g h k
      · rcases hd : parse_date_utc (pyStr ts) with _ | d
        · rw [runRows_cons_err g0 r rs _ (step_fatal g0 r ts ep hts hep hd)] at h
          cases h
        · rw [runRows_cons_ok g0 _ r rs (step_ok g0 r ts ep d hts hep hd)] at h
          have hrk := recordKey_some r ts ep d hts hep hd
          by_cases hk : k = (d, normalize_endpoint (pyStr ep))
          · subst hk
            rw [contributingRecords_cons_of_eq r rs _ hrk]
            rw [ih _ g h _, lookupG_updateGroup, if_pos rfl]
            rfl
          · rw [contributingRecords_cons_of_ne r rs k
              (by rw [hrk]; exact fun hc => hk (Option.some.inj hc).symm)]
            rw [ih _ g h k, lookupG_updateGroup, if_neg hk]

/-- Bool form of the 2xx range check of `Agg.add`. -/
def statusIn2xx (s : Int) : Bool := decide (200 ≤ s ∧ s ≤ 299)

/-- Bool form of the 4xx range check of `Agg.add`. -/
def statusIn4xx (s : Int) : Bool := decide (400 ≤ s ∧ s ≤ 499)

/-- Bool form of the 5xx range check of `Agg.add`. -/
def statusIn5xx (s : Int) : Bool := decide (500 ≤ s ∧ s ≤ 599)

/-- The records of a list whose coerced status code lies in 200-299. -/
def count2xx (l : List Record) : ℕ := l.countP (fun r => statusIn2xx (recStatus r))

/-- The records of a list whose coerced status code lies in 400-499. -/
def count4xx (l : List Record) : ℕ := l.countP (fun r => statusIn4xx (recStatus r))

/-- The records of a list whose coerced status code lies in 500-599. -/
def count5xx (l : List Record) : ℕ := l.countP (fun r => statusIn5xx (recStatus r))

/-- The records of a list whose coerced status code falls outside all
three ranges 200-299, 400-499 and 500-599. -/
def countOutside (l : List Record) : ℕ :=
  l.countP (fun r => !(statusIn2xx (recStatus r) || statusIn4xx (recStatus r) || statusIn5xx (recStatus r)))

/-- The records of a list whose resolved parse outcome is not `"ok"`. -/
def countParseErr (l : List Record) : ℕ :=
  l.countP (fun r => decide (resolvedParse r ≠ "ok"))

lemma add_requests_total (a : Agg) (sc : Int) (e : ℚ) (pr : String) :
    (Agg.add a sc e pr).requests_total = a.requests_total + 1 := by
  simp only [Agg.add]
  split_ifs <;> rfl

lemma add_elapsed (a : Agg) (sc : Int) (e : ℚ) (pr : String) :
    (Agg.add a sc e pr).elapsed = a.elapsed ++ [e] := by
  simp only [Agg.add]
  split_ifs <;> rfl

lemma add_success_2xx (a : Agg) (sc : Int) (e : ℚ) (pr : String) :
    (Agg.add a sc e pr).success_2xx =
      a.success_2xx + (if 200 ≤ sc ∧ sc ≤ 299 then 1 else 0) := by
  simp only [Agg.add]
  split_ifs <;> first | rfl | omega

lemma add_client_4xx (a : Agg) (sc : Int) (e : ℚ) (pr : String) :
    (Agg.add a sc e pr).client_4xx =
      a.client_4xx + (if 400 ≤ sc ∧ sc ≤ 499 then 1 else 0) := by
  simp only [Agg.add]
  split_ifs <;> first | rfl | omega

lemma add_server_5xx (a : Agg) (sc : Int) (e : ℚ) (pr : String) :
    (Agg.add a sc e pr).server_5xx =
      a.server_5xx + (if 500 ≤ sc ∧ sc ≤ 599 then 1 else 0) := by
  simp only [Agg.add]
  split_ifs <;> first | rfl | omega

lemma add_parse_errors (a : Agg) (sc : Int) (e : ℚ) (pr : String) :
    (Agg.add a sc e pr).parse_errors =
      a.parse_errors + (if pr ≠ "ok" then 1 else 0) := by
  simp only [Agg.add]
  split_ifs <;> first | rfl | omega

lemma foldl_addRec_requests (l : List Record) :
    ∀ a0 : Agg, (l.foldl addRec a0).requests_total = a0.requests_total + l.length := by
  induction l with
  | nil => intro a0; simp
  | cons r rs ih =>
    intro a0
    simp only [List.foldl_cons, ih, addRec, add_requests_total, List.length_cons]
    omega

lemma foldl_addRec_elapsed_length (l : List Record) :
    ∀ a0 : Agg, (l.foldl addRec a0).elapsed.length = a0.elapsed.length + l.length := by
  induction l with
  | nil => intro a0; simp
  | cons r rs ih =>
    intro a0
    simp only [List.foldl_cons, ih, addRec, add_elapsed, List.length_append,
      List.length_cons, List.length_nil]
    omega

lemma foldl_addRec_success (l : List Record) :
    ∀ a0 : Agg, (l.foldl addRec a0).success_2xx = a0.success_2xx + count2xx l := by
  induction l with
  | nil => intro a0; simp [count2xx]
  | cons r rs ih =>
    intro a0
    simp only [List.foldl_cons, ih, addRec, add_success_2xx, count2xx, List.countP_cons]
    by_cases h : 200 ≤ recStatus r ∧ recStatus r ≤ 299 <;>
      simp [h, statusIn2xx, count2xx] <;> omega

lemma foldl_addRec_client (l : List Record) :
    ∀ a0 : Agg, (l.foldl addRec a0).client_4xx = a0.client_4xx + count4xx l := by
  induction l with
  | nil => intro a0; simp [count4xx]
  | cons r rs ih =>
    intro a0
    simp only [List.foldl_cons, ih, addRec, add_client_4xx, count4xx, List.countP_cons]
    by_cases h : 400 ≤ recStatus r ∧ recStatus r ≤ 499 <;>
      simp [h, statusIn4xx, count4xx] <;> omega

lemma foldl_addRec_server (l : List Record) :
    ∀ a0 : Agg, (l.foldl addRec a0).server_5xx = a0.server_5xx + count5xx l := by
  induction l with
  | nil => intro a0; simp [count5xx]
  | cons r rs ih =>
    intro a0
    simp only [List.foldl_cons, ih, addRec, add_server_5xx, count5xx, List.countP_cons]
    by_cases h : 500 ≤ recStatus r ∧ recStatus r ≤ 599 <;>
      simp [h, statusIn5xx, count5xx] <;> omega

lemma foldl_addRec_parse_errors (l : List Record) :
    ∀ a0 : Agg, (l.foldl addRec a0).parse_errors = a0.parse_errors + countParseErr l := by
  induction l with
  | nil => intro a0; simp [countParseErr]
  | cons r rs ih =>
    intro a0
    simp only [List.foldl_cons, ih, addRec, add_parse_errors, countParseErr, List.countP_cons]
    by_cases h : resolvedParse r ≠ "ok" <;> simp [h, countParseErr] <;> omega

lemma status_buckets_one (s : Int) :
    (if statusIn2xx s then (1:ℕ) else 0) + (if statusIn4xx s then 1 else 0) +
      (if statusIn5xx s then 1 else 0) +
      (if !(statusIn2xx s || statusIn4xx s || statusIn5xx s) then 1 else 0) = 1 := by
  simp only [statusIn2xx, statusIn4xx, statusIn5xx]
  by_cases h2 : 200 ≤ s ∧ s ≤ 299 <;> by_cases h4 : 400 ≤ s ∧ s ≤ 499 <;>
    by_cases h5 : 500 ≤ s ∧ s ≤ 599 <;> simp [h2, h4, h5] <;> omega

lemma count_status_partition (l : List Record) :
    count2xx l + count4xx l + count5xx l + countOutside l = l.length := by
  induction l with
  | nil => rfl
  | cons r rs ih =>
    simp only [count2xx, count4xx, count5xx, countOutside, List.countP_cons,
      List.length_cons] at ih ⊢
    have h1 := status_buckets_one (recStatus r)
    omega

/-- The accumulator bound to a key in the output of `compute_kpis` is
exactly the fold of the key's contributing records into a fresh
accumulator. -/
lemma groups_agg_eq (rows : List Record) (groups : Groups) (k : GroupKey) (agg : Agg)
    (h : compute_kpis rows = Except.ok groups) (hm : (k, agg) ∈ groups) :
    agg = (contributingRecords rows k).foldl addRec emptyAgg ∧
      contributingRecords rows k ≠ [] := by
  have hnd := runRows_nodup rows [] groups h (by simp)
  have hl := lookupG_of_mem groups k agg hnd hm
  have h2 := runRows_lookup rows [] groups h k
  rw [hl] at h2
  rcases hcrs : contributingRecords rows k with _ | ⟨r, rs⟩
  · rw [hcrs] at h2
    cases h2
  · rw [hcrs] at h2
    have : applyRecs (lookupG [] k) (r :: rs) = some ((r :: rs).foldl addRec emptyAgg) := by
      show applyRecs (some (addRec emptyAgg r)) rs = _
      rw [applyRecs_some]
      rfl
    rw [this] at h2
    exact ⟨Option.some.inj h2, by simp⟩

/-- The C6 scenario record of the spec:
`{"timestamp_utc":"2024-01-01T10:00:00Z","endpoint":"/status/403?x=1","status_code":"403","elapsed_ms":"120.5","parse_result":"ok"}`. -/
def recOk : Record :=
  { timestamp_utc := some (.s "2024-01-01T10:00:00Z")
    endpoint := some (.s "/status/403?x=1")
    status_code := some (.s "403")
    elapsed_ms := some (.s "120.5")
    parse_result := some (.s "ok") }

/-- The accumulator `compute_kpis` builds from `recOk` alone. -/
def aggOk : Agg :=
  { elapsed := [(241 : ℚ)/2]
    requests_total := 1
    success_2xx := 0
    client_4xx := 1
    server_5xx := 0
    parse_errors := 0 }

/-- The group key of `recOk`. -/
def keyOk : GroupKey := ("2024-01-01", "/status")

/-- C1: for every input record sequence, every group accumulator produced
by `compute_kpis` satisfies: `requests_total` equals the number of elapsed
samples stored for the group (and the number of records contributing to
the group), and equals `success_2xx + client_4xx + server_5xx` plus the
count of contributing records whose status code fell outside all three
ranges 200-299, 400-499 and 500-599. -/
theorem compute_kpis_group_invariant
    (rows : List Record) (groups : Groups) (k : GroupKey) (agg : Agg)
    (h : compute_kpis rows = Except.ok groups) (hm : (k, agg) ∈ groups) :
    agg.requests_total = agg.elapsed.length ∧
    agg.requests_total = (contributingRecords rows k).length ∧
    agg.requests_total =
      agg.success_2xx + agg.client_4xx + agg.server_5xx +
        countOutside (contributingRecords rows k) := by
  obtain ⟨heq, -⟩ := groups_agg_eq rows groups k agg h hm
  subst heq
  refine ⟨?_, ?_, ?_⟩
  · rw [foldl_addRec_requests, foldl_addRec_elapsed_length]
    simp [emptyAgg]
  · rw [foldl_addRec_requests]
    simp [emptyAgg]
  · rw [foldl_addRec_requests, foldl_addRec_success, foldl_addRec_client,
      foldl_addRec_server]
    have hp := count_status_partition (contributingRecords rows k)
    simp only [emptyAgg]
    omega

/-- C1 witness: the invariant evaluated on the singleton input `[recOk]`. -/
theorem compute_kpis_group_invariant_witness :
    aggOk.requests_total = aggOk.elapsed.length ∧
    aggOk.requests_total = (contributingRecords [recOk] keyOk).length ∧
    aggOk.requests_total =
      aggOk.success_2xx + aggOk.client_4xx + aggOk.server_5xx +
        countOutside (contributingRecords [recOk] keyOk) :=
  compute_kpis_group_invariant [recOk] [(keyOk, aggOk)] keyOk aggOk
    (by with_unfolding_all rfl) (by simp)

/-- C2: for every input record sequence and every group produced by
`compute_kpis`, `parse_errors` is at most `requests_total`, and equals
exactly the number of contributing records whose resolved parse outcome
(after the coercion-forced overrides and the absent-defaults-to-error
rule) is not the string `"ok"`. -/
theorem compute_kpis_parse_errors
    (rows : List Record) (groups : Groups) (k : GroupKey) (agg : Agg)
    (h : compute_kpis rows = Except.ok groups) (hm : (k, agg) ∈ groups) :
    agg.parse_errors ≤ agg.requests_total ∧
    agg.parse_errors = countParseErr (contributingRecords rows k) := by
  obtain ⟨heq, -⟩ := groups_agg_eq rows groups k agg h hm
  subst heq
  rw [foldl_addRec_parse_errors, foldl_addRec_requests]
  simp only [emptyAgg]
  refine ⟨?_, by simp⟩
  have := List.countP_le_length (fun r => decide (resolvedParse r ≠ "ok")) (l := contributingRecords rows k)
  simp only [countParseErr]
  omega

/-- C2 witness: the bound evaluated on the singleton input `[recOk]`. -/
theorem compute_kpis_parse_errors_witness :
    aggOk.parse_errors ≤ aggOk.requests_total ∧
    aggOk.parse_errors = countParseErr (contributingRecords [recOk] keyOk) :=
  compute_kpis_parse_errors [recOk] [(keyOk, aggOk)] keyOk aggOk
    (by with_unfolding_all rfl) (by simp)

/-- C3: for every record whose `status_code` (respectively `elapsed_ms`)
fails integer (respectively float) coercion, `compute_kpis` substitutes 0
(respectively 0.0) and forces the record's `parse_result` to `"error"`
regardless of its original value; such a record still increments
`requests_total` and contributes its substituted elapsed value to the
sample list, leaves all three status buckets unchanged when the
substituted status is 0, and contributes 1 to `parse_errors`. -/
theorem coercion_failure_effects
    (r : Record) (g g' : Groups) (k : GroupKey)
    (hk : recordKey r = some k) (hs : step g r = Except.ok g') :
    (r.status_code.bind pyInt = none →
      recStatus r = 0 ∧ resolvedParse r = "error") ∧
    (r.elapsed_ms.bind pyFloat = none →
      recElapsed r = 0 ∧ resolvedParse r = "error") ∧
    lookupG g' k = some (addRec ((lookupG g k).getD emptyAgg) r) ∧
    (r.status_code.bind pyInt = none →
      (addRec ((lookupG g k).getD emptyAgg) r).requests_total
        = ((lookupG g k).getD emptyAgg).requests_total + 1 ∧
      (addRec ((lookupG g k).getD emptyAgg) r).elapsed
        = ((lookupG g k).getD emptyAgg).elapsed ++ [recElapsed r] ∧
      (addRec ((lookupG g k).getD emptyAgg) r).success_2xx
        = ((lookupG g k).getD emptyAgg).success_2xx ∧
      (addRec ((lookupG g k).getD emptyAgg) r).client_4xx
        = ((lookupG g k).getD emptyAgg).client_4xx ∧
      (addRec ((lookupG g k).getD emptyAgg) r).server_5xx
        = ((lookupG g k).getD emptyAgg).server_5xx ∧
      (addRec ((lookupG g k).getD emptyAgg) r).parse_errors
        = ((lookupG g k).getD emptyAgg).parse_errors + 1) := by
  rcases hts : r.timestamp_utc with _ | ts
  · rw [recordKey_none r (Or.inl hts)] at hk; cases hk
  rcases hep : r.endpoint with _ | ep
  · rw [recordKey_none r (Or.inr hep)] at hk; cases hk
  rcases hd : parse_date_utc (pyStr ts) with _ | d
  · rw [step_fatal g r ts ep hts hep hd] at hs
    cases hs
  have hkey := recordKey_some r ts ep d hts hep hd
  rw [hkey] at hk
  injection hk with hk
  subst hk
  rw [step_ok g r ts ep d hts hep hd] at hs
  injection hs with hs
  subst hs
  refine ⟨?_, ?_, ?_, ?_⟩
  · intro hn
    exact ⟨by simp [recStatus, hn], by simp [resolvedParse, hn]⟩
  · intro hn
    exact ⟨by simp [recElapsed, hn], by simp [resolvedParse, hn]⟩
  · rw [lookupG_updateGroup, if_pos rfl]
  · intro hn
    have hsc : recStatus r = 0 := by simp [recStatus, hn]
    have hpe : resolvedParse r = "error" := by simp [resolvedParse, hn]
    refine ⟨?_, ?_, ?_, ?_, ?_, ?_⟩
    · rw [addRec, add_requests_total]
    · rw [addRec, add_elapsed]
    · rw [addRec, add_success_2xx, hsc]
      norm_num
    · rw [addRec, add_client_4xx, hsc]
      norm_num
    · rw [addRec, add_server_5xx, hsc]
      norm_num
    · rw [addRec, add_parse_errors, hpe,
        if_pos (show ("error" : String) ≠ "ok" by decide)]

/-- A record with an uncoercible `status_code` (`"abc"`), used to
exercise the coercion-failure path. -/
def recBadStatus : Record :=
  { timestamp_utc := some (.s "2024-01-01T10:00:00Z")
    endpoint := some (.s "/get")
    status_code := some (.s "abc")
    elapsed_ms := some (.f 5)
    parse_result := some (.s "ok") }

/-- C3 witness: the coercion-failure effects evaluated on `recBadStatus`
stepped into an empty group map. -/
theorem coercion_failure_effects_witness :
    (recBadStatus.status_code.bind pyInt = none →
      recStatus recBadStatus = 0 ∧ resolvedParse recBadStatus = "error") ∧
    (recBadStatus.elapsed_ms.bind pyFloat = none →
      recElapsed recBadStatus = 0 ∧ resolvedParse recBadStatus = "error") ∧
    lookupG [(("2024-01-01", "/get"),
        addRec ((lookupG [] ("2024-01-01", "/get")).getD emptyAgg) recBadStatus)]
        ("2024-01-01", "/get")
      = some (addRec ((lookupG [] ("2024-01-01", "/get")).getD emptyAgg) recBadStatus) ∧
    (recBadStatus.status_code.bind pyInt = none →
      (addRec ((lookupG [] ("2024-01-01", "/get")).getD emptyAgg) recBadStatus).requests_total
        = ((lookupG [] ("2024-01-01", "/get")).getD emptyAgg).requests_total + 1 ∧
      (addRec ((lookupG [] ("2024-01-01", "/get")).getD emptyAgg) recBadStatus).elapsed
        = ((lookupG [] ("2024-01-01", "/get")).getD emptyAgg).elapsed ++ [recElapsed recBadStatus] ∧
      (addRec ((lookupG [] ("2024-01-01", "/get")).getD emptyAgg) recBadStatus).success_2xx
        = ((lookupG [] ("2024-01-01", "/get")).getD emptyAgg).success_2xx ∧
      (addRec ((lookupG [] ("2024-01-01", "/get")).getD emptyAgg) recBadStatus).client_4xx
        = ((lookupG [] ("2024-01-01", "/get")).getD emptyAgg).client_4xx ∧
      (addRec ((lookupG [] ("2024-01-01", "/get")).getD emptyAgg) recBadStatus).server_5xx
        = ((lookupG [] ("2024-01-01", "/get")).getD emptyAgg).server_5xx ∧
      (addRec ((lookupG [] ("2024-01-01", "/get")).getD emptyAgg) recBadStatus).parse_errors
        = ((lookupG [] ("2024-01-01", "/get")).getD emptyAgg).parse_errors + 1) :=
  coercion_failure_effects recBadStatus []
    [(("2024-01-01", "/get"),
        addRec ((lookupG [] ("2024-01-01", "/get")).getD emptyAgg) recBadStatus)]
    ("2024-01-01", "/get")
    (by with_unfolding_all rfl) (by with_unfolding_all rfl)

/-- C4: a record whose `timestamp_utc` or `endpoint` field is absent is
silently discarded: the output of `compute_kpis` is the same as on the
input with that record removed. -/
theorem missing_fields_dropped (pre post : List Record) (r : Record)
    (h : r.timestamp_utc = none ∨ r.endpoint = none) :
    compute_kpis (pre ++ r :: post) = compute_kpis (pre ++ post) := by
  have key : ∀ (l : List Record) (g0 : Groups),
      runRows g0 (l ++ r :: post) = runRows g0 (l ++ post) := by
    intro l
    induction l with
    | nil =>
      intro g0
      exact runRows_cons_ok g0 g0 r post (step_drop g0 r h)
    | cons q qs ih =>
      intro g0
      cases hq : step g0 q with
      | ok g1 =>
        rw [List.cons_append, List.cons_append, runRows_cons_ok g0 g1 q _ hq,
          runRows_cons_ok g0 g1 q _ hq]
        exact ih g1
      | error e =>
        rw [List.cons_append, List.cons_append, runRows_cons_err g0 q _ e hq,
          runRows_cons_err g0 q _ e hq]
  exact key pre []

/-- A record with no `timestamp_utc` at all. -/
def recNoTs : Record :=
  { timestamp_utc := none
    endpoint := some (.s "/get")
    status_code := some (.i 200)
    elapsed_ms := some (.i 7)
    parse_result := some (.s "ok") }

/-- C4 witness: dropping `recNoTs` from the two-record input `[recOk,
recNoTs]` leaves the output unchanged. -/
theorem missing_fields_dropped_witness :
    compute_kpis ([recOk] ++ recNoTs :: []) = compute_kpis ([recOk] ++ []) :=
  missing_fields_dropped [recOk] [] recNoTs (Or.inl rfl)

/-- A record whose timestamp string `"2024-1-01T10:00:00Z"` is not in the
zero-padded form `YYYY-MM-DDTHH:MM:SSZ` (its month is a single digit), yet
is accepted by `strptime` with format `%Y-%m-%dT%H:%M:%SZ`. -/
def recLooseTs : Record :=
  { timestamp_utc := some (.s "2024-1-01T10:00:00Z")
    endpoint := some (.s "/ping")
    status_code := some (.i 200)
    elapsed_ms := some (.i 5)
    parse_result := some (.s "ok") }

/-- C5 counterexample: `recLooseTs` has a present `timestamp_utc` whose
string form does not match the exact format `YYYY-MM-DDTHH:MM:SSZ` (the
month is `1`, not `01`), yet `compute_kpis` does not fail on it: the
record is parsed and aggregated normally, because `strptime`'s `%m` also
matches a single digit. -/
theorem malformed_timestamp_counterexample :
    compute_kpis [recLooseTs] =
      Except.ok [(("2024-01-01", "/ping"),
        { elapsed := [5], requests_total := 1, success_2xx := 1, client_4xx := 0,
          server_5xx := 0, parse_errors := 0 })] := by
  with_unfolding_all rfl

/-- C5 (amended): for every record whose `timestamp_utc` and `endpoint`
are both present but whose timestamp string is rejected by
`strptime(..., "%Y-%m-%dT%H:%M:%SZ")`, `compute_kpis` fails with a fatal
error on any input containing the record, rather than dropping it the way
a missing `timestamp_utc` is dropped. -/
theorem malformed_timestamp_aborts (pre post : List Record) (r : Record) (ts ep : JVal)
    (hts : r.timestamp_utc = some ts) (hep : r.endpoint = some ep)
    (hd : parse_date_utc (pyStr ts) = none) :
    ∃ e, compute_kpis (pre ++ r :: post) = Except.error e := by
  have key : ∀ (l : List Record) (g0 : Groups),
      ∃ e, runRows g0 (l ++ r :: post) = Except.error e := by
    intro l
    induction l with
    | nil =>
      intro g0
      exact ⟨_, runRows_cons_err g0 r post _ (step_fatal g0 r ts ep hts hep hd)⟩
    | cons q qs ih =>
      intro g0
      cases hq : step g0 q with
      | ok g1 =>
        obtain ⟨e, he⟩ := ih g1
        exact ⟨e, by rw [List.cons_append, runRows_cons_ok g0 g1 q _ hq]; exact he⟩
      | error e =>
        exact ⟨e, by rw [List.cons_append, runRows_cons_err g0 q _ e hq]⟩
  exact key pre []

/-- A record whose timestamp string is not a date at all. -/
def recBadTs : Record :=
  { timestamp_utc := some (.s "not-a-date")
    endpoint := some (.s "/get")
    status_code := some (.i 200)
    elapsed_ms := some (.i 5)
    parse_result := some (.s "ok") }

/-- C5 witness: `compute_kpis` fails on an input whose second record
carries the unparsable timestamp `"not-a-date"`. -/
theorem malformed_timestamp_aborts_witness :
    ∃ e, compute_kpis ([recOk] ++ recBadTs :: []) = Except.error e :=
  malformed_timestamp_aborts [recOk] [] recBadTs (.s "not-a-date") (.s "/get")
    rfl rfl (by with_unfolding_all rfl)

/-- C6: on the single-record input `recOk` (the spec's scenario record),
`compute_kpis` produces exactly one group, keyed
`("2024-01-01", "/status")`, with `requests_total = 1`, `server_5xx = 0`,
`client_4xx = 1`, `parse_errors = 0`, and both `avg_elapsed_ms` and
`p90_elapsed_ms` equal to 120.5. -/
theorem compute_kpis_scenario :
    compute_kpis [recOk] = Except.ok [(keyOk, aggOk)] ∧
    keyOk = ("2024-01-01", "/status") ∧
    aggOk.requests_total = 1 ∧
    aggOk.server_5xx = 0 ∧
    aggOk.client_4xx = 1 ∧
    aggOk.parse_errors = 0 ∧
    aggOk.avg_elapsed_ms = (1205 : ℚ)/10 ∧
    aggOk.p90_elapsed_ms = (1205 : ℚ)/10 := by
  refine ⟨by with_unfolding_all rfl, rfl, rfl, rfl, rfl, rfl, ?_, ?_⟩
  · with_unfolding_all rfl
  · with_unfolding_all rfl

/-- C7: the alert flag of a report row is `"SI"` exactly when the row's
rounded weighted `p90_elapsed_ms` strictly exceeds `umbral_p90`; in
particular a weighted p90 of 500.00 is flagged against a threshold of
499.99 and not flagged against a threshold of 500.00. -/
theorem alert_flag_strict (df : List KpiRow) (umbral_p90 : ℚ) (row : EndpointRow)
    (hmem : row ∈ build_endpoint_table df) :
    (alerta_p90 row.p90_elapsed_ms umbral_p90 = "SI" ↔
      umbral_p90 < row.p90_elapsed_ms) ∧
    alerta_p90 500 ((49999 : ℚ)/100) = "SI" ∧
    alerta_p90 500 500 = "NO" := by
  refine ⟨?_, ?_, ?_⟩
  · unfold alerta_p90
    split_ifs with hlt
    · simp [hlt]
    · simp only [hlt, iff_false]
      decide
  · unfold alerta_p90
    rw [if_pos (by with_unfolding_all decide)]
  · unfold alerta_p90
    rw [if_neg (by with_unfolding_all decide)]

/-- A one-row KPI table whose only endpoint has p90 exactly 500. -/
def kpiRow500 : KpiRow :=
  { date_utc := "2024-01-01", endpoint_base := "/a", requests_total := 1,
    success_2xx := 1, client_4xx := 0, server_5xx := 0, parse_errors := 0,
    avg_elapsed_ms := 500, p90_elapsed_ms := 500 }

/-- The endpoint summary row `build_endpoint_table` derives from
`kpiRow500`. -/
def endpointRow500 : EndpointRow :=
  { endpoint_base := "/a", requests_total := 1, success_2xx := 1,
    client_4xx := 0, server_5xx := 0, avg_elapsed_ms := 500,
    p90_elapsed_ms := 500, pct_success := 100, pct_client_4xx := 0,
    pct_server_5xx := 0 }

set_option maxRecDepth 8000 in
/-- C7 witness: the strict-threshold iff evaluated on the summary row
built from `kpiRow500`. -/
theorem alert_flag_strict_witness :
    (alerta_p90 endpointRow500.p90_elapsed_ms ((49999 : ℚ)/100) = "SI" ↔
      (49999 : ℚ)/100 < endpointRow500.p90_elapsed_ms) ∧
    alerta_p90 500 ((49999 : ℚ)/100) = "SI" ∧
    alerta_p90 500 500 = "NO" :=
  alert_flag_strict [kpiRow500] ((49999 : ℚ)/100) endpointRow500
    (by with_unfolding_all decide)

/-- C9: `avg_elapsed_ms` and `p90_elapsed_ms` are order-independent
functions of the multiset of samples: two accumulators holding permuted
sample lists report identical values for both. -/
theorem elapsed_metrics_perm_invariant (a₁ a₂ : Agg)
    (h : List.Perm a₁.elapsed a₂.elapsed) :
    a₁.avg_elapsed_ms = a₂.avg_elapsed_ms ∧
    a₁.p90_elapsed_ms = a₂.p90_elapsed_ms := by
  have hlen := h.length_eq
  have hnil : a₁.elapsed = [] ↔ a₂.elapsed = [] := by
    constructor <;> intro hh <;> [exact (hh ▸ h).nil_eq.symm; exact (hh ▸ h.symm).nil_eq.symm]
  have hsort : List.insertionSort (· ≤ ·) a₁.elapsed =
      List.insertionSort (· ≤ ·) a₂.elapsed := by
    refine List.eq_of_perm_of_sorted ?_ (List.sorted_insertionSort _ _)
      (List.sorted_insertionSort _ _)
    exact ((List.perm_insertionSort _ _).trans h).trans (List.perm_insertionSort _ _).symm
  constructor
  · unfold Agg.avg_elapsed_ms
    by_cases h1 : a₁.elapsed = []
    · rw [if_pos h1, if_pos (hnil.mp h1)]
    · rw [if_neg h1, if_neg (fun hh => h1 (hnil.mpr hh)), h.sum_eq, hlen]
  · unfold Agg.p90_elapsed_ms
    by_cases h1 : a₁.elapsed = []
    · rw [if_pos h1, if_pos (hnil.mp h1)]
    · rw [if_neg h1, if_neg (fun hh => h1 (hnil.mpr hh))]
      unfold percentile90
      rw [hsort, hlen]

/-- C9 witness: the invariance evaluated on two concrete accumulators with
permuted sample lists. -/
theorem elapsed_metrics_perm_invariant_witness :
    (⟨[1, 2, 3], 3, 3, 0, 0, 0⟩ : Agg).avg_elapsed_ms =
      (⟨[3, 1, 2], 3, 3, 0, 0, 0⟩ : Agg).avg_elapsed_ms ∧
    (⟨[1, 2, 3], 3, 3, 0, 0, 0⟩ : Agg).p90_elapsed_ms =
      (⟨[3, 1, 2], 3, 3, 0, 0, 0⟩ : Agg).p90_elapsed_ms :=
  elapsed_metrics_perm_invariant ⟨[1, 2, 3], 3, 3, 0, 0, 0⟩ ⟨[3, 1, 2], 3, 3, 0, 0, 0⟩
    (by decide)

lemma roundQ2_zero : roundQ2 0 = 0 := by
  with_unfolding_all decide

lemma aggEndpoint_zero_requests (b : String) (grp : List KpiRow)
    (hz : ∀ r ∈ grp, r.requests_total = 0) :
    (aggEndpoint b grp).endpoint_base = b ∧
    (aggEndpoint b grp).avg_elapsed_ms = 0 ∧
    (aggEndpoint b grp).p90_elapsed_ms = 0 ∧
    (aggEndpoint b grp).pct_success = 0 ∧
    (aggEndpoint b grp).pct_client_4xx = 0 ∧
    (aggEndpoint b grp).pct_server_5xx = 0 := by
  have hrt : (grp.map (·.requests_total)).sum = 0 := by
    apply List.sum_eq_zero
    intro x hx
    obtain ⟨r, hr, rfl⟩ := List.mem_map.mp hx
    exact hz r hr
  have havg : (grp.map (fun r => r.avg_elapsed_ms * (r.requests_total : ℚ))).sum = 0 := by
    apply List.sum_eq_zero
    intro x hx
    obtain ⟨r, hr, rfl⟩ := List.mem_map.mp hx
    rw [hz r hr]
    simp
  have hp90 : (grp.map (fun r => r.p90_elapsed_ms * (r.requests_total : ℚ))).sum = 0 := by
    apply List.sum_eq_zero
    intro x hx
    obtain ⟨r, hr, rfl⟩ := List.mem_map.mp hx
    rw [hz r hr]
    simp
  unfold aggEndpoint
  simp only [hrt, havg, hp90, zero_div, lt_irrefl, if_false, roundQ2_zero]
  simp

/-- C8: a KPI table containing an `endpoint_base` all of whose rows have
`requests_total = 0` still yields a well-defined summary row for it, with
weighted `avg_elapsed_ms` and `p90_elapsed_ms` both 0 and all three
percentage fields 0 (the `max(..., 1)` divisor and the
`requests_total > 0` guard make every division defined). -/
theorem zero_requests_summary (df : List KpiRow) (base : String)
    (hex : ∃ r, r ∈ df ∧ r.endpoint_base = base)
    (hz : ∀ r ∈ df, r.endpoint_base = base → r.requests_total = 0) :
    ∃ row ∈ build_endpoint_table df,
      row.endpoint_base = base ∧
      row.avg_elapsed_ms = 0 ∧ row.p90_elapsed_ms = 0 ∧
      row.pct_success = 0 ∧ row.pct_client_4xx = 0 ∧ row.pct_server_5xx = 0 := by
  have hfz : ∀ r ∈ df.filter (fun r => r.endpoint_base = base), r.requests_total = 0 := by
    intro r hr
    obtain ⟨hdf, hb⟩ := List.mem_filter.mp hr
    exact hz r hdf (by simpa using hb)
  refine ⟨aggEndpoint base (df.filter (fun r => r.endpoint_base = base)), ?_, ?_⟩
  · unfold build_endpoint_table
    rw [(List.perm_insertionSort _ _).mem_iff]
    apply List.mem_map_of_mem
    rw [(List.perm_insertionSort _ _).mem_iff, List.mem_dedup]
    obtain ⟨r, hr, hb⟩ := hex
    exact hb ▸ List.mem_map_of_mem (·.endpoint_base) hr
  · exact aggEndpoint_zero_requests base _ hfz

/-- A KPI row with `requests_total = 0`. -/
def kpiRowZero : KpiRow :=
  { date_utc := "2024-01-02", endpoint_base := "/z", requests_total := 0,
    success_2xx := 0, client_4xx := 0, server_5xx := 0, parse_errors := 0,
    avg_elapsed_ms := 3, p90_elapsed_ms := 7 }

/-- C8 witness: the guard evaluated on a one-row table whose only row has
`requests_total = 0`. -/
theorem zero_requests_summary_witness :
    ∃ row ∈ build_endpoint_table [kpiRowZero],
      row.endpoint_base = "/z" ∧
      row.avg_elapsed_ms = 0 ∧ row.p90_elapsed_ms = 0 ∧
      row.pct_success = 0 ∧ row.pct_client_4xx = 0 ∧ row.pct_server_5xx = 0 :=
  zero_requests_summary [kpiRowZero] "/z" ⟨kpiRowZero, by simp, rfl⟩
    (by intro r hr hb; rw [List.mem_singleton.mp hr]; rfl)
